import Mathlib

/-!
Shallow embedding of the userver task-processor core
(src/engine/task/task_processor.cpp and src/engine/wait_list.cpp).

Machine state is made explicit: atomics become plain fields, the
thread-local scheduling counter becomes an explicit `Nat` threaded
through calls, and the steady clock becomes a `Nat` parameter (`0` is
the sentinel "unknown" timepoint, exactly as the zero
`steady_clock::time_point()` is in the source).  Side effects on
collaborators (`RequestCancel`, `Wakeup`, the task-counter accounting
calls) are recorded as an ordered event trace.
-/

namespace Engine

/-- `Task::CancellationReason` values the core uses. -/
inductive CancellationReason where
  | kShutdown
  | kOverload
  | kUser
  deriving DecidableEq, Repr

/-- `TaskProcessorSettings::OverloadAction`. -/
inductive OverloadAction where
  | kIgnore
  | kCancel
  deriving DecidableEq, Repr

/-- `impl::TaskContext::WakeupSource` values the wait-list uses. -/
inductive WakeupSource where
  | kWaitList
  deriving DecidableEq, Repr

/-- The side effects the embedded functions perform on collaborators,
recorded in program order. -/
inductive Event where
  | requestCancel (taskId : Nat) (reason : CancellationReason)
  | wakeup (taskId : Nat) (source : WakeupSource)
  | accountTaskOverload
  | accountTaskCancelOverload
  | accountTaskSwitchSlow
  | addRef (taskId : Nat)
  | enqueue (taskId : Nat)
  deriving DecidableEq, Repr

/-- The part of `impl::TaskContext` the task processor reads or writes:
the task id, the `IsCritical` flag, and the queue-wait timepoint
(steady clock; `0` is the sentinel zero `time_point`). -/
structure TaskContext where
  taskId : Nat
  critical : Bool
  queueWaitTimepoint : Nat
  deriving DecidableEq, Repr

/-- `TaskProcessor::HandleOverload` (task_processor.cpp:145-161).
Accounts one task overload; if the overload action is `kCancel` and the
context is not critical, requests `kOverload` cancellation and accounts
one cancel-due-to-overload. -/
def HandleOverload (overloadAction : OverloadAction) (context : TaskContext) :
    List Event :=
  Event.accountTaskOverload ::
    (if overloadAction = OverloadAction.kCancel then
      (if !context.critical then
        [Event.requestCancel context.taskId CancellationReason.kOverload,
         Event.accountTaskCancelOverload]
      else [])
    else [])

/-- Result of `TaskProcessor::CheckWaitTime`: the new value of the
`task_queue_wait_time_overloaded_` atomic and the trace of effects. -/
structure CheckWaitTimeResult where
  overloaded : Bool
  events : List Event
  deriving DecidableEq, Repr

/-- `TaskProcessor::CheckWaitTime` (task_processor.cpp:118-143).
`maxWaitTime` is the loaded `max_task_queue_wait_time_`, `prev` the
current `task_queue_wait_time_overloaded_`, `now` the fresh
`steady_clock::now()` sample.  The wait time is the signed duration
`now - wait_timepoint`, compared against the threshold. -/
def CheckWaitTime (maxWaitTime : Nat) (prev : Bool)
    (overloadAction : OverloadAction) (now : Nat) (context : TaskContext) :
    CheckWaitTimeResult :=
  if maxWaitTime = 0 then
    { overloaded := false, events := [] }
  else
    let overloaded :=
      if context.queueWaitTimepoint ≠ 0 then
        decide ((now : Int) - (context.queueWaitTimepoint : Int) ≥
          (maxWaitTime : Int))
      else
        prev
    { overloaded := overloaded,
      events := if overloaded then HandleOverload overloadAction context else [] }

/-- `kTaskTimestampFrequency` (task_processor.cpp:59). -/
def kTaskTimestampFrequency : Nat := 16

/-- `TaskProcessor::SetTaskQueueWaitTimepoint` (task_processor.cpp:58-70).
`taskCount` is the thread-local counter before the call; the post
increment `task_count++` tests the old value and leaves the counter
incremented, so the updated counter is returned alongside the stamped
context.  `now` is `steady_clock::now()`; a positive value, since the
zero `time_point` is the sentinel. -/
def SetTaskQueueWaitTimepoint (taskCount : Nat) (now : Nat)
    (context : TaskContext) : TaskContext × Nat :=
  if taskCount % kTaskTimestampFrequency = 0 then
    ({ context with queueWaitTimepoint := now }, taskCount + 1)
  else
    ({ context with queueWaitTimepoint := 0 }, taskCount + 1)

/-- The task-processor state `TaskProcessor::Schedule` touches:
the runtime-tunable settings, the shutdown flag, the
`task_queue_size_` atomic, the queue contents, and the scheduling
thread's thread-local stamp counter. -/
structure ProcState where
  maxTaskQueueWaitLength : Nat
  overloadAction : OverloadAction
  isShuttingDown : Bool
  taskQueueSize : Nat
  taskQueue : List TaskContext
  threadTaskCount : Nat
  deriving DecidableEq, Repr

/-- `TaskProcessor::Schedule` (task_processor.cpp:72-94).
Checks the length-based overload threshold against the pre-increment
`task_queue_size_`, then the shutdown flag, then stamps the wait
timepoint, adds a reference, increments `task_queue_size_` and
enqueues.  The event trace records the side effects in program
order. -/
def Schedule (s : ProcState) (context : TaskContext) (now : Nat) :
    ProcState × List Event :=
  let overloadEvents :=
    if s.maxTaskQueueWaitLength ≠ 0 ∧ !context.critical ∧
        s.taskQueueSize ≥ s.maxTaskQueueWaitLength then
      HandleOverload s.overloadAction context
    else []
  let shutdownEvents :=
    if s.isShuttingDown then
      [Event.requestCancel context.taskId CancellationReason.kShutdown]
    else []
  let stamped := SetTaskQueueWaitTimepoint s.threadTaskCount now context
  ({ s with
      taskQueueSize := s.taskQueueSize + 1,
      taskQueue := s.taskQueue ++ [stamped.1],
      threadTaskCount := stamped.2 },
   overloadEvents ++ shutdownEvents ++
     [Event.addRef context.taskId, Event.enqueue context.taskId])

/-- One poll of `wait_dequeue_timed` in `TaskProcessor::DequeueTask`:
the item produced (if any) and the value of `is_running_` read right
after a timed-out poll. -/
structure Poll where
  item : Option Nat
  isRunning : Bool
  deriving DecidableEq, Repr

/-- `TaskProcessor::DequeueTask` (task_processor.cpp:163-180), driven
by a finite trace of poll outcomes.  The loop
`while (!wait_dequeue_timed(...) && is_running_) AccountTaskSwitchSlow();`
retries on a timed-out poll only while `is_running_` holds, accounting
one slow switch per retried timeout; a timed-out poll that observes
`is_running_ == false` exits the loop (short-circuit) without running
the body.  Returns the dequeued handle (`none` for the null exit) and
the slow-switch accounting trace. -/
def DequeueTask : List Poll → Option Nat × List Event
  | [] => (none, [])
  | p :: rest =>
    match p.item with
    | some t => (some t, [])
    | none =>
      if p.isRunning then
        let r := DequeueTask rest
        (r.1, Event.accountTaskSwitchSlow :: r.2)
      else
        (none, [])

/-- A wait-list slot: `boost::intrusive_ptr<impl::TaskContext>`, which
`Remove` may reset to null.  `none` is the cleared (tombstone) slot. -/
abbrev Slot := Option Nat

/-- `WaitList::WakeupOne` (wait_list.cpp:17-27).  Pops slots from the
head until a non-empty one is found; wakes that context with source
`kWaitList` and stops.  Returns the remaining list and the wakeup
trace. -/
def WakeupOne : List Slot → List Slot × List Event
  | [] => ([], [])
  | slot :: rest =>
    match slot with
    | some c => (rest, [Event.wakeup c WakeupSource.kWaitList])
    | none => WakeupOne rest

/-- The wakeups `WaitList::WakeupAll`'s loop performs, in list order. -/
def wakeupAllEvents : List Slot → List Event
  | [] => []
  | slot :: rest =>
    match slot with
    | some c => Event.wakeup c WakeupSource.kWaitList :: wakeupAllEvents rest
    | none => wakeupAllEvents rest

/-- `WaitList::WakeupAll` (wait_list.cpp:29-37).  Wakes every non-empty
slot in list order, then clears the list. -/
def WakeupAll (l : List Slot) : List Slot × List Event :=
  ([], wakeupAllEvents l)

/-- `WaitList::Remove` (wait_list.cpp:39-49).  Finds the first slot
equal to the given context and resets it in place (no shift); no
wakeup is performed.  Returns the updated list and the (empty) event
trace. -/
def Remove : List Slot → Nat → List Slot × List Event
  | [], _ => ([], [])
  | slot :: rest, c =>
    if slot = some c then (none :: rest, [])
    else
      let r := Remove rest c
      (slot :: r.1, r.2)

/-- Claim C2: `HandleOverload` accounts exactly one task overload
unconditionally; it accounts exactly one cancel-due-to-overload when
the overload action is `kCancel` and the context is not critical and
none otherwise; and it emits a `RequestCancel` (necessarily with
reason `kOverload`) if and only if the action is `kCancel` and the
context is not critical — in particular a critical context is never
cancelled. -/
theorem handleOverload_spec (act : OverloadAction) (ctx : TaskContext) :
    (HandleOverload act ctx).count Event.accountTaskOverload = 1
    ∧ (HandleOverload act ctx).count Event.accountTaskCancelOverload
        = (if act = OverloadAction.kCancel ∧ ctx.critical = false then 1 else 0)
    ∧ (∀ r, Event.requestCancel ctx.taskId r ∈ HandleOverload act ctx
        ↔ (r = CancellationReason.kOverload ∧ act = OverloadAction.kCancel
            ∧ ctx.critical = false)) := by
  obtain ⟨tid, crit, tp⟩ := ctx
  cases act <;> cases crit <;> simp [HandleOverload, List.count_cons]

/-- Claim C1: `CheckWaitTime` with a zero threshold clears the
overloaded flag and performs no effect; with a nonzero threshold it
keeps the previous flag on the sentinel (zero) timepoint, recomputes
it as `now - timepoint ≥ threshold` on a real timestamp, and invokes
`HandleOverload` on the context exactly when the updated flag is
true. -/
theorem checkWaitTime_spec (maxWaitTime : Nat) (prev : Bool)
    (act : OverloadAction) (now : Nat) (ctx : TaskContext) :
    (maxWaitTime = 0 →
      CheckWaitTime maxWaitTime prev act now ctx
        = { overloaded := false, events := [] })
    ∧ (maxWaitTime ≠ 0 → ctx.queueWaitTimepoint = 0 →
      (CheckWaitTime maxWaitTime prev act now ctx).overloaded = prev)
    ∧ (maxWaitTime ≠ 0 → ctx.queueWaitTimepoint ≠ 0 →
      (CheckWaitTime maxWaitTime prev act now ctx).overloaded
        = decide ((now : Int) - (ctx.queueWaitTimepoint : Int)
            ≥ (maxWaitTime : Int)))
    ∧ (maxWaitTime ≠ 0 →
      (CheckWaitTime maxWaitTime prev act now ctx).events
        = (if (CheckWaitTime maxWaitTime prev act now ctx).overloaded
            then HandleOverload act ctx else [])) := by
  refine ⟨fun h0 => ?_, fun hn hs => ?_, fun hn hs => ?_, fun hn => ?_⟩
  · simp [CheckWaitTime, h0]
  · simp [CheckWaitTime, hn, hs]
  · simp [CheckWaitTime, hn, hs]
  · simp only [CheckWaitTime, hn, if_false, if_neg hn]

/-- Witness for C1 at concrete inputs: a zero threshold clears the
flag, and a real timestamp with wait `20 - 5 ≥ 10` sets it. -/
theorem checkWaitTime_spec_witness :
    CheckWaitTime 0 true OverloadAction.kCancel 20 ⟨1, false, 5⟩
        = { overloaded := false, events := [] }
    ∧ (CheckWaitTime 10 false OverloadAction.kCancel 20 ⟨1, false, 5⟩).overloaded
        = decide ((20 : Int) - (5 : Int) ≥ (10 : Int)) :=
  ⟨(checkWaitTime_spec 0 true OverloadAction.kCancel 20 ⟨1, false, 5⟩).1 rfl,
   (checkWaitTime_spec 10 false OverloadAction.kCancel 20 ⟨1, false, 5⟩).2.2.1
     (by decide) (by decide)⟩

/-- Claim C6: the stamp counter advances by one on every call, and
among any 16 consecutive `Schedule`-side stamping calls by one thread
(thread-local counter values `v, v+1, …, v+15`) exactly one stamps the
real clock value `now` — the one whose counter is a multiple of 16 —
while every other call stores the sentinel `0`. -/
theorem setTaskQueueWaitTimepoint_one_in_16 (v now : Nat) (ctx : TaskContext)
    (h : now ≠ 0) :
    (∀ c, (SetTaskQueueWaitTimepoint c now ctx).2 = c + 1)
    ∧ (∃! i : Fin 16,
        (SetTaskQueueWaitTimepoint (v + i.val) now ctx).1.queueWaitTimepoint
          = now)
    ∧ (∀ i : Fin 16, (v + i.val) % 16 ≠ 0 →
        (SetTaskQueueWaitTimepoint (v + i.val) now ctx).1.queueWaitTimepoint
          = 0) := by
  have hstamp : ∀ c, c % 16 = 0 →
      (SetTaskQueueWaitTimepoint c now ctx).1.queueWaitTimepoint = now := by
    intro c hc
    simp [SetTaskQueueWaitTimepoint, kTaskTimestampFrequency, hc]
  have hskip : ∀ c, c % 16 ≠ 0 →
      (SetTaskQueueWaitTimepoint c now ctx).1.queueWaitTimepoint = 0 := by
    intro c hc
    simp [SetTaskQueueWaitTimepoint, kTaskTimestampFrequency, hc]
  refine ⟨fun c => ?_, ?_, fun i hi => hskip _ hi⟩
  · simp only [SetTaskQueueWaitTimepoint]
    split <;> rfl
  · have hex : (v + (16 - v % 16) % 16) % 16 = 0 := by omega
    refine ⟨⟨(16 - v % 16) % 16, by omega⟩, hstamp _ hex, ?_⟩
    intro j hj
    by_cases hmod : (v + j.val) % 16 = 0
    · have hlt := j.isLt
      exact Fin.ext (show j.val = (16 - v % 16) % 16 by omega)
    · exact absurd (hj.symm.trans (hskip _ hmod)) h

/-- Witness for C6 at counter window starting at 5: the call with
counter `5 + 1 = 6` (not a multiple of 16) stores the sentinel. -/
theorem setTaskQueueWaitTimepoint_one_in_16_witness :
    (SetTaskQueueWaitTimepoint (5 + (1 : Fin 16).val) 100
        ⟨1, false, 0⟩).1.queueWaitTimepoint = 0 :=
  (setTaskQueueWaitTimepoint_one_in_16 5 100 ⟨1, false, 0⟩ (by decide)).2.2
    1 (by decide)

/-- Counterexample to C5 as stated: on a trace with a single timed-out
poll observed while `is_running_` is false, the worker exits with a
null handle but the slow-switch counter is NOT incremented — the
`while (!dequeued && is_running_)` condition short-circuits out of the
loop before the body runs, so this timed-out dequeue accounts
nothing, contradicting "every dequeue attempt that times out …
increments the slow-switch counter exactly once". -/
theorem dequeueTask_claim_counterexample :
    ¬ ((DequeueTask [⟨none, false⟩]).2.count Event.accountTaskSwitchSlow = 1
        ∧ (DequeueTask [⟨none, false⟩]).1 = none) := by
  decide

/-- Claim C5 (amended): a timed-out dequeue observed while
`is_running_` is true accounts exactly one slow switch and the loop
retries; a timed-out dequeue observed while `is_running_` is false
exits immediately, returning a null handle, without accounting; a
successful dequeue returns its item without accounting. -/
theorem dequeueTask_spec (rest : List Poll) (t : Nat) :
    (∀ polls : List Poll,
      (DequeueTask (⟨none, true⟩ :: polls)).2.count Event.accountTaskSwitchSlow
          = (DequeueTask polls).2.count Event.accountTaskSwitchSlow + 1
        ∧ (DequeueTask (⟨none, true⟩ :: polls)).1 = (DequeueTask polls).1)
    ∧ DequeueTask (⟨none, false⟩ :: rest) = (none, [])
    ∧ DequeueTask (⟨some t, true⟩ :: rest) = (some t, []) := by
  refine ⟨fun polls => ⟨?_, ?_⟩, rfl, rfl⟩ <;>
    simp [DequeueTask, List.count_cons]

/-- Claim C7: `WakeupOne` leaves exactly the slots after the first
non-empty one (head tombstones are discarded, waking no one), and its
wake trace is a single `kWaitList` wakeup of the first non-empty
slot's context — the earliest appended, not-removed waiter — or empty
when no non-empty slot exists. -/
theorem wakeupOne_spec (l : List Slot) :
    (WakeupOne l).1 = (l.dropWhile Option.isNone).tail
    ∧ (WakeupOne l).2
        = (match l.findSome? id with
           | some c => [Event.wakeup c WakeupSource.kWaitList]
           | none => []) := by
  induction l with
  | nil => exact ⟨rfl, rfl⟩
  | cons s rest ih =>
    cases s with
    | none =>
      simpa [WakeupOne, List.dropWhile_cons, List.findSome?_cons] using ih
    | some c =>
      simp [WakeupOne, List.dropWhile_cons, List.findSome?_cons]

/-- The per-context wakeup count of `wakeupAllEvents` equals the
occurrence count of the context's slot in the list. -/
theorem wakeupAllEvents_count (l : List Slot) (c : Nat) :
    (wakeupAllEvents l).count (Event.wakeup c WakeupSource.kWaitList)
      = l.count (some c) := by
  induction l with
  | nil => rfl
  | cons s rest ih =>
    cases s with
    | none => simpa [wakeupAllEvents, List.count_cons] using ih
    | some a =>
      by_cases hac : a = c
      · subst hac
        simp [wakeupAllEvents, List.count_cons, ih]
      · simp [wakeupAllEvents, List.count_cons, hac, Ne.symm hac, ih]

/-- Claim C8: `WakeupAll` empties the list; its wake trace is the
`kWaitList` wakeup of every non-empty slot in list (append) order,
skipping cleared slots; and each context occupying a slot is woken
exactly as many times as it occurs (hence exactly once under the
no-duplicate invariant). -/
theorem wakeupAll_spec (l : List Slot) :
    (WakeupAll l).1 = []
    ∧ (WakeupAll l).2
        = l.filterMap (Option.map fun c => Event.wakeup c WakeupSource.kWaitList)
    ∧ ∀ c, (WakeupAll l).2.count (Event.wakeup c WakeupSource.kWaitList)
        = l.count (some c) := by
  refine ⟨rfl, ?_, fun c => wakeupAllEvents_count l c⟩
  induction l with
  | nil => rfl
  | cons s rest ih =>
    cases s <;> simp [wakeupAllEvents, WakeupAll, List.filterMap_cons] <;>
      simpa [WakeupAll] using ih

/-- `Remove` preserves the list length. -/
theorem remove_length (l : List Slot) (c : Nat) :
    (Remove l c).1.length = l.length := by
  induction l with
  | nil => rfl
  | cons s rest ih =>
    by_cases hs : s = some c
    · simp [Remove, hs]
    · simp [Remove, hs, ih]

/-- `Remove` performs no effect on any context (no wakeup). -/
theorem remove_events (l : List Slot) (c : Nat) :
    (Remove l c).2 = [] := by
  induction l with
  | nil => rfl
  | cons s rest ih =>
    by_cases hs : s = some c
    · simp [Remove, hs]
    · simp [Remove, hs, ih]

/-- `Remove` leaves every slot not holding the context unchanged. -/
theorem remove_frame (l : List Slot) (c : Nat) (i : Nat)
    (h : l[i]? ≠ some (some c)) : (Remove l c).1[i]? = l[i]? := by
  induction l generalizing i with
  | nil => rfl
  | cons s rest ih =>
    by_cases hs : s = some c
    · cases i with
      | zero => exact absurd (by simp [hs]) h
      | succ i => simp [Remove, hs]
    · cases i with
      | zero => simp [Remove, hs]
      | succ i =>
        have := ih i (by simpa using h)
        simpa [Remove, hs] using this

/-- `Remove` clears the first slot holding the context in place. -/
theorem remove_clears_first (l : List Slot) (c : Nat) (i : Nat)
    (h : l[i]? = some (some c))
    (hfirst : ∀ j, j < i → l[j]? ≠ some (some c)) :
    (Remove l c).1[i]? = some none := by
  induction l generalizing i with
  | nil => simp at h
  | cons s rest ih =>
    cases i with
    | zero =>
      have hs : s = some c := by simpa using h
      simp [Remove, hs]
    | succ i =>
      have hs : ¬s = some c := by
        have := hfirst 0 (Nat.succ_pos i)
        simpa using this
      have := ih i (by simpa using h)
        (fun j hj => by simpa using hfirst (j + 1) (Nat.succ_lt_succ hj))
      simpa [Remove, hs] using this

/-- When the context occurs at most once, no slot holding it survives
`Remove`. -/
theorem remove_not_mem (l : List Slot) (c : Nat)
    (hcount : l.count (some c) ≤ 1) : some c ∉ (Remove l c).1 := by
  induction l with
  | nil => exact List.not_mem_nil _
  | cons s rest ih =>
    by_cases hs : s = some c
    · subst hs
      have h0 : rest.count (some c) = 0 := by
        have := List.count_cons_self (some c) rest
        omega
      simp [Remove, List.count_eq_zero.mp h0]
    · have hr : rest.count (some c) ≤ 1 := by
        have := List.count_cons (some c) s rest
        simp [hs] at this
        omega
      simp [Remove, hs, Ne.symm hs]
      exact fun h => (ih hr) h

/-- Claim C9: `Remove` clears the first slot holding the context in
place — that position becomes the empty slot — while the length and
every other slot are unchanged (no shifting); it wakes no one; and
under the at-most-once invariant (asserted in debug) no slot holding
the context remains afterwards. -/
theorem remove_spec (l : List Slot) (c : Nat) :
    (Remove l c).1.length = l.length
    ∧ (Remove l c).2 = []
    ∧ (∀ i : Nat, l[i]? ≠ some (some c) → (Remove l c).1[i]? = l[i]?)
    ∧ (∀ i : Nat, l[i]? = some (some c) →
        (∀ j, j < i → l[j]? ≠ some (some c)) → (Remove l c).1[i]? = some none)
    ∧ (l.count (some c) ≤ 1 → some c ∉ (Remove l c).1) :=
  ⟨remove_length l c, remove_events l c, remove_frame l c,
   remove_clears_first l c, remove_not_mem l c⟩

/-- Witness for C9 on the list `[some 2, some 1, none]` with context
`1`: the frame, first-clearing and no-survivor conjuncts at concrete
positions. -/
theorem remove_spec_witness :
    (Remove [some 2, some 1, none] 1).1[0]? = some (some 2)
    ∧ (Remove [some 2, some 1, none] 1).1[1]? = some none
    ∧ some 1 ∉ (Remove [some 2, some 1, none] 1).1 :=
  ⟨(remove_spec [some 2, some 1, none] 1).2.2.1 0 (by decide),
   (remove_spec [some 2, some 1, none] 1).2.2.2.1 1 (by decide)
     (fun j hj => by
       have hj0 : j = 0 := by omega
       subst hj0
       decide),
   (remove_spec [some 2, some 1, none] 1).2.2.2.2 (by decide)⟩

/-- The overload handler's unconditional accounting event appears in
`Schedule`'s trace exactly when the length-based overload condition
holds on the pre-increment queue size. -/
theorem schedule_overload_mem (s : ProcState) (ctx : TaskContext) (now : Nat) :
    Event.accountTaskOverload ∈ (Schedule s ctx now).2
      ↔ (s.maxTaskQueueWaitLength ≠ 0
          ∧ s.taskQueueSize ≥ s.maxTaskQueueWaitLength
          ∧ ctx.critical = false) := by
  by_cases h1 : s.maxTaskQueueWaitLength = 0 <;>
    by_cases h2 : s.taskQueueSize ≥ s.maxTaskQueueWaitLength <;>
      cases hc : ctx.critical <;> by_cases hQ : s.isShuttingDown <;>
        simp [Schedule, HandleOverload, h1, h2, hc, hQ]

/-- The last event of every `Schedule` call is the enqueue of the
scheduled context: whatever else `Schedule` does (overload handling,
shutdown cancellation) happens before enqueueing. -/
theorem schedule_enqueues_last (s : ProcState) (ctx : TaskContext) (now : Nat) :
    (Schedule s ctx now).2.getLast? = some (Event.enqueue ctx.taskId) := by
  simp only [Schedule]
  rw [List.getLast?_append_of_ne_nil _ (by simp)]
  rfl

/-- Claim C3: `Schedule` invokes the overload handler if and only if
the length threshold is nonzero, the (pre-increment) queue size has
reached it, and the context is not critical; and in every case —
overloaded, shutting down, or not — the context (with its stamped
timepoint, same task id and criticality) is still appended to the
task queue, with the enqueue as the final effect, so the task is
never dropped. -/
theorem schedule_spec (s : ProcState) (ctx : TaskContext) (now : Nat) :
    (Event.accountTaskOverload ∈ (Schedule s ctx now).2
      ↔ (s.maxTaskQueueWaitLength ≠ 0
          ∧ s.taskQueueSize ≥ s.maxTaskQueueWaitLength
          ∧ ctx.critical = false))
    ∧ (Schedule s ctx now).1.taskQueue
        = s.taskQueue ++ [(SetTaskQueueWaitTimepoint s.threadTaskCount now ctx).1]
    ∧ (SetTaskQueueWaitTimepoint s.threadTaskCount now ctx).1.taskId = ctx.taskId
    ∧ (SetTaskQueueWaitTimepoint s.threadTaskCount now ctx).1.critical
        = ctx.critical
    ∧ (Schedule s ctx now).2.getLast? = some (Event.enqueue ctx.taskId) := by
  refine ⟨schedule_overload_mem s ctx now, rfl, ?_, ?_,
    schedule_enqueues_last s ctx now⟩ <;>
    · simp only [SetTaskQueueWaitTimepoint]
      split <;> rfl

/-- `HandleOverload` never requests a `kShutdown` cancellation. -/
theorem handleOverload_no_shutdown_cancel (act : OverloadAction)
    (ctx : TaskContext) (tid : Nat) :
    Event.requestCancel tid CancellationReason.kShutdown
      ∉ HandleOverload act ctx := by
  cases act <;> cases hc : ctx.critical <;> simp [HandleOverload, hc]

/-- Claim C4: `Schedule` emits a `RequestCancel` with reason
`kShutdown` exactly when `is_shutting_down_` is set — when it is set,
the cancellation comes before the enqueue event — and the context is
appended to the task queue either way. -/
theorem schedule_shutdown_spec (s : ProcState) (ctx : TaskContext) (now : Nat) :
    (Event.requestCancel ctx.taskId CancellationReason.kShutdown
        ∈ (Schedule s ctx now).2
      ↔ s.isShuttingDown = true)
    ∧ (s.isShuttingDown = true →
        ∃ l1 l2, (Schedule s ctx now).2
            = l1 ++ Event.requestCancel ctx.taskId CancellationReason.kShutdown
                :: l2
          ∧ Event.enqueue ctx.taskId ∈ l2)
    ∧ (Schedule s ctx now).1.taskQueue
        = s.taskQueue
            ++ [(SetTaskQueueWaitTimepoint s.threadTaskCount now ctx).1] := by
  refine ⟨?_, fun hQ => ?_, rfl⟩
  · by_cases hQ : s.isShuttingDown
    · simp [Schedule, hQ]
    · by_cases hP : (s.maxTaskQueueWaitLength ≠ 0 ∧ !ctx.critical
          ∧ s.taskQueueSize ≥ s.maxTaskQueueWaitLength) <;>
        simp [Schedule, hQ, hP, handleOverload_no_shutdown_cancel]
  · refine ⟨(if s.maxTaskQueueWaitLength ≠ 0 ∧ !ctx.critical
        ∧ s.taskQueueSize ≥ s.maxTaskQueueWaitLength
      then HandleOverload s.overloadAction ctx else []),
      [Event.addRef ctx.taskId, Event.enqueue ctx.taskId], ?_, by simp⟩
    simp [Schedule, hQ]

/-- Witness for C4: scheduling task 7 on a shutting-down processor
emits the `kShutdown` cancellation before the enqueue event. -/
theorem schedule_shutdown_spec_witness :
    ∃ l1 l2,
      (Schedule ⟨0, OverloadAction.kIgnore, true, 0, [], 0⟩ ⟨7, false, 0⟩ 100).2
          = l1 ++ Event.requestCancel 7 CancellationReason.kShutdown :: l2
        ∧ Event.enqueue 7 ∈ l2 :=
  (schedule_shutdown_spec ⟨0, OverloadAction.kIgnore, true, 0, [], 0⟩
    ⟨7, false, 0⟩ 100).2.1 rfl

/-- Claim C10: the length-based check reads `task_queue_size_` before
`Schedule` increments it for the scheduled context, so the context
does not count itself: with a nonzero threshold `L` and a non-critical
context the handler fires exactly when at least `L` other contexts are
already accounted, in particular not when the queue would only reach
`L` counting this context; and the increment happens regardless of the
overload outcome. -/
theorem schedule_size_precheck_spec (s : ProcState) (ctx : TaskContext)
    (now : Nat) (hL : s.maxTaskQueueWaitLength ≠ 0)
    (hc : ctx.critical = false) :
    (Schedule s ctx now).1.taskQueueSize = s.taskQueueSize + 1
    ∧ (Event.accountTaskOverload ∈ (Schedule s ctx now).2
        ↔ s.taskQueueSize ≥ s.maxTaskQueueWaitLength)
    ∧ (s.taskQueueSize + 1 = s.maxTaskQueueWaitLength →
        Event.accountTaskOverload ∉ (Schedule s ctx now).2) := by
  refine ⟨rfl, ?_, fun hsize => ?_⟩
  · rw [schedule_overload_mem]
    simp [hL, hc]
  · rw [schedule_overload_mem]
    simp only [hc]
    omega

/-- Witness for C10: with threshold 4 and 3 contexts already in the
queue, scheduling a fourth non-critical context fires no overload. -/
theorem schedule_size_precheck_spec_witness :
    Event.accountTaskOverload
      ∉ (Schedule ⟨4, OverloadAction.kCancel, false, 3, [], 0⟩
          ⟨1, false, 0⟩ 100).2 :=
  (schedule_size_precheck_spec ⟨4, OverloadAction.kCancel, false, 3, [], 0⟩
    ⟨1, false, 0⟩ 100 (by decide) rfl).2.2 rfl

end Engine
